import Mathlib

/-!
Verification of the slurm_query query pipeline: a shallow embedding of the
sanitizing text codecs (`src/escape.rs`, `src/ansi.rs`), the cell
stringifier (`src/arrow_utils.rs`) and the query pipeline of
`src/main.rs`, together with theorems about them.  Strings are modelled as
`List Char` (Rust iterates `s.chars()`); the byte-level query escaper works
on `List Nat` of byte values (Rust iterates `s.bytes()`).
-/

namespace SlurmQuery

/-! ### `src/escape.rs` -/

/-! ### `src/ansi.rs` -/

/-! ### `src/arrow_utils.rs` -/

/-! ### `src/main.rs`: the query pipeline -/

/-! ### Counting `<thead>` occurrences (spec side)

A scanner that counts occurrences of the seven-character string
`<thead>`.  The state is the length of the match in progress; because
`<` occurs in the pattern only at position 0, on a mismatch the match in
progress can only restart at a `<`. -/

/-- Per-character expansion performed by the loop body of `escape_html` in
`src/escape.rs`: the five HTML-special characters become entities, every
other character passes through unchanged. -/
def escapeHtmlChar (c : Char) : List Char :=
  if c = '&' then "&amp;".data
  else if c = '<' then "&lt;".data
  else if c = '>' then "&gt;".data
  else if c = '"' then "&quot;".data
  else if c = '\'' then "&#39;".data
  else [c]

/-- `escape_html` from `src/escape.rs`: the output accumulated by the loop
is the concatenation of the per-character expansions. -/
def escape_html (s : List Char) : List Char :=
  (s.map escapeHtmlChar).flatten

/-- Uppercase hexadecimal digit for a value below 16, as produced by Rust
`format!("{:02X}", _)`. -/
def hexDigit (n : Nat) : Char :=
  if n < 10 then Char.ofNat (48 + n) else Char.ofNat (55 + n)

/-- The pass-through condition of the byte match in `escape_query`
(`src/escape.rs`): ASCII letters, digits, `-`, `.`, space and `~`. -/
def isQueryPassthrough (b : Nat) : Bool :=
  (97 ≤ b && b ≤ 122) || (65 ≤ b && b ≤ 90) || (48 ≤ b && b ≤ 57)
    || b = 45 || b = 46 || b = 32 || b = 126

/-- Per-byte expansion performed by the loop body of `escape_query`: a
pass-through byte is pushed as the character of the same code point,
any other byte becomes `%` followed by its two uppercase hex digits
(Rust `format!("%{:02X}", c)`, exactly two digits for a `u8`). -/
def escapeQueryByte (b : Nat) : List Char :=
  if isQueryPassthrough b then [Char.ofNat b]
  else ['%', hexDigit (b / 16), hexDigit (b % 16)]

/-- `escape_query` from `src/escape.rs`, over the byte values of the input
string (Rust iterates `s.bytes()`). -/
def escape_query (s : List Nat) : List Char :=
  (s.map escapeQueryByte).flatten

/-- The scanner state of `strip_ansi` (`enum State` in `src/ansi.rs`). -/
inductive AnsiState : Type
  | normal : AnsiState
  | escape : AnsiState
  | csi : AnsiState
deriving DecidableEq

/-- One iteration of the `for b in s.chars()` loop of `strip_ansi`:
returns the next state and the characters pushed to the output. -/
def stripAnsiStep (st : AnsiState) (c : Char) : AnsiState × List Char :=
  match st with
  | AnsiState.normal =>
      if c = '\x1B' then (AnsiState.escape, []) else (AnsiState.normal, [c])
  | AnsiState.escape =>
      if c = '[' then (AnsiState.csi, []) else (AnsiState.normal, [])
  | AnsiState.csi =>
      if '\x40' ≤ c ∧ c ≤ '\x7F' then (AnsiState.normal, []) else (AnsiState.csi, [])

/-- The loop of `strip_ansi`, started in an arbitrary state. -/
def stripAnsiGo : AnsiState → List Char → List Char
  | _, [] => []
  | st, c :: rest =>
      (stripAnsiStep st c).2 ++ stripAnsiGo (stripAnsiStep st c).1 rest

/-- `strip_ansi` from `src/ansi.rs`: run the scanner from `Normal`. -/
def strip_ansi (s : List Char) : List Char :=
  stripAnsiGo AnsiState.normal s

/-- Spec-side check for the claim that `escape_html`'s output contains no
unescaped ampersand: every `&` in the string must begin one of the five
entities the escaper emits. -/
def entityStart (l : List Char) : Bool :=
  match l with
  | 'a' :: 'm' :: 'p' :: ';' :: _ => true
  | 'l' :: 't' :: ';' :: _ => true
  | 'g' :: 't' :: ';' :: _ => true
  | 'q' :: 'u' :: 'o' :: 't' :: ';' :: _ => true
  | '#' :: '3' :: '9' :: ';' :: _ => true
  | _ => false

/-- `ampOk s` holds when every occurrence of `&` in `s` starts an HTML
entity emitted by the escaper. -/
def ampOk : List Char → Bool
  | [] => true
  | c :: rest => (if c = '&' then entityStart rest else true) && ampOk rest

/-! ### Percent-decoding (spec side) and round-trip lemmas -/

/-- Value of a hexadecimal digit character. -/
def hexVal (c : Char) : Option Nat :=
  if '0' ≤ c ∧ c ≤ '9' then some (c.toNat - 48)
  else if 'A' ≤ c ∧ c ≤ 'F' then some (c.toNat - 55)
  else if 'a' ≤ c ∧ c ≤ 'f' then some (c.toNat - 87)
  else none

/-- Modelled from the spec: "standard percent-decoding" of a query
component, yielding the byte sequence it encodes: `%` followed by two hex
digits decodes to that byte, any other character decodes to its own code
point. `none` on a malformed escape. -/
def percentDecode : List Char → Option (List Nat)
  | [] => some []
  | c :: rest =>
      if c = '%' then
        match rest with
        | h :: l :: rest2 =>
            match hexVal h, hexVal l, percentDecode rest2 with
            | some hv, some lv, some t => some ((16 * hv + lv) :: t)
            | _, _, _ => none
        | _ => none
      else (percentDecode rest).map (fun t => c.toNat :: t)

/-- Uppercase-hex-digit check, for stating the shape of an escape. -/
def isUpperHexDigit (c : Char) : Bool :=
  ('0' ≤ c && c ≤ '9') || ('A' ≤ c && c ≤ 'F')

/-- Model of an Arrow column as seen by `value_string`: the outcome of
`ArrayFormatter::try_new` for this column — either an error message or a
per-row formatter (`f.value(row).to_string()`). -/
structure ArrowColumn : Type where
  tryFormatter : Except (List Char) (Nat → List Char)

/-- `value_string` from `src/arrow_utils.rs`: format the cell on success,
use the error's message as the cell text on failure. -/
def value_string (column : ArrowColumn) (row : Nat) : List Char :=
  match column.tryFormatter with
  | Except.ok f => f row
  | Except.error e => e

/-- One result batch as consumed by the rendering loop in `query`:
`column_names()`, `len()` (number of rows) and `columns()`. -/
structure ResultBatch : Type where
  columnNames : List (List Char)
  numRows : Nat
  columns : List ArrowColumn

/-- The header block emitted once by the loop in `query`
(`<thead><tr>` … `</tr></thead><tbody>`). -/
def renderHeader (b : ResultBatch) : List Char :=
  "<thead><tr>".data
    ++ (b.columnNames.map (fun col => "<th>".data ++ escape_html col ++ "</th>".data)).flatten
    ++ "</tr></thead><tbody>".data

/-- The row markup emitted for one batch: one `<tr>` per row, one `<td>`
per column, cell text `escape_html(value_string(col, row))`. -/
def renderBatchRows (b : ResultBatch) : List Char :=
  ((List.range b.numRows).map (fun row =>
    "<tr>".data
      ++ (b.columns.map (fun col =>
            "<td>".data ++ escape_html (value_string col row) ++ "</td>".data)).flatten
      ++ "</tr>".data)).flatten

/-- The `while let Some(batch) = stmt.step()` loop of `query`, carrying the
`header_printed` flag. -/
def renderLoop : Bool → List ResultBatch → List Char
  | _, [] => []
  | headerPrinted, b :: rest =>
      (if headerPrinted then [] else renderHeader b)
        ++ renderBatchRows b ++ renderLoop true rest

/-- The complete `table_html` string built by `query`: the opening tag,
the loop output, and the closing `</tbody></table>`. -/
def renderTable (batches : List ResultBatch) : List Char :=
  "<table id=\"results\">".data ++ renderLoop false batches ++ "</tbody></table>".data

/-- The externally observable steps of `query` in `src/main.rs`, in source
order. -/
inductive Step : Type
  | compilePrql
  | acquireSnapshot
  | openSession
  | loadSnapshot
  | disableFilesystems
  | lockConfiguration
  | prepareStatement
  | executeStatement
deriving DecidableEq

/-- The error raised by each failure point of the pipeline. -/
inductive QueryError : Type
  | compileError (msg : List Char)
  | snapshotAcquisitionFailed
  | sessionOpenFailed
  | snapshotLoadFailed
  | disableFilesystemsFailed
  | lockConfigurationFailed
  | prepareFailed
  | executeFailed

/-- `squeue_json` from `src/main.rs`, abstracted over the exit status of
the spawned `squeue --json` process: a zero exit status succeeds, a
non-zero one fails (`bail!("command failed")`). -/
def squeue_json (exitSuccess : Bool) : Except QueryError Unit :=
  if exitSuccess then Except.ok () else Except.error QueryError.snapshotAcquisitionFailed

/-- The outcomes of the external calls `query` makes, in source order:
the `prqlc::compile` result (raw diagnostic text on failure, which may
contain ANSI colour codes), the exit status of the snapshot process, the
success of each fallible engine call, and the result batches streamed by
the prepared statement. -/
structure Env : Type where
  compileResult : Except (List Char) (List Char)
  snapshotExitSuccess : Bool
  sessionOpenOk : Bool
  snapshotLoadOk : Bool
  disableFilesystemsOk : Bool
  lockConfigurationOk : Bool
  prepareOk : Bool
  executeOk : Bool
  batches : List ResultBatch

/-- The `query` function of `src/main.rs` over an `Env`: each `?` early
return is a branch, and the first component records the steps reached, in
order. On success the result is the rendered `table_html`. -/
def run (env : Env) : List Step × Except QueryError (List Char) :=
  match env.compileResult with
  | Except.error e =>
      ([Step.compilePrql], Except.error (QueryError.compileError (strip_ansi e)))
  | Except.ok _sql =>
      match squeue_json env.snapshotExitSuccess with
      | Except.error err =>
          ([Step.compilePrql, Step.acquireSnapshot], Except.error err)
      | Except.ok () =>
          if env.sessionOpenOk = false then
            ([Step.compilePrql, Step.acquireSnapshot, Step.openSession],
              Except.error QueryError.sessionOpenFailed)
          else if env.snapshotLoadOk = false then
            ([Step.compilePrql, Step.acquireSnapshot, Step.openSession, Step.loadSnapshot],
              Except.error QueryError.snapshotLoadFailed)
          else if env.disableFilesystemsOk = false then
            ([Step.compilePrql, Step.acquireSnapshot, Step.openSession, Step.loadSnapshot,
              Step.disableFilesystems],
              Except.error QueryError.disableFilesystemsFailed)
          else if env.lockConfigurationOk = false then
            ([Step.compilePrql, Step.acquireSnapshot, Step.openSession, Step.loadSnapshot,
              Step.disableFilesystems, Step.lockConfiguration],
              Except.error QueryError.lockConfigurationFailed)
          else if env.prepareOk = false then
            ([Step.compilePrql, Step.acquireSnapshot, Step.openSession, Step.loadSnapshot,
              Step.disableFilesystems, Step.lockConfiguration, Step.prepareStatement],
              Except.error QueryError.prepareFailed)
          else if env.executeOk = false then
            ([Step.compilePrql, Step.acquireSnapshot, Step.openSession, Step.loadSnapshot,
              Step.disableFilesystems, Step.lockConfiguration, Step.prepareStatement,
              Step.executeStatement],
              Except.error QueryError.executeFailed)
          else
            ([Step.compilePrql, Step.acquireSnapshot, Step.openSession, Step.loadSnapshot,
              Step.disableFilesystems, Step.lockConfiguration, Step.prepareStatement,
              Step.executeStatement],
              Except.ok (renderTable env.batches))

/-- One scanner step: next state and number of completed `<thead>`
occurrences (0 or 1). -/
def theadNext (st : Nat) (c : Char) : Nat × Nat :=
  if st = 1 then (if c = 't' then (2, 0) else if c = '<' then (1, 0) else (0, 0))
  else if st = 2 then (if c = 'h' then (3, 0) else if c = '<' then (1, 0) else (0, 0))
  else if st = 3 then (if c = 'e' then (4, 0) else if c = '<' then (1, 0) else (0, 0))
  else if st = 4 then (if c = 'a' then (5, 0) else if c = '<' then (1, 0) else (0, 0))
  else if st = 5 then (if c = 'd' then (6, 0) else if c = '<' then (1, 0) else (0, 0))
  else if st = 6 then (if c = '>' then (0, 1) else if c = '<' then (1, 0) else (0, 0))
  else (if c = '<' then (1, 0) else (0, 0))

/-- Scanner state after consuming `s` from state `st`. -/
def theadEnd : Nat → List Char → Nat
  | st, [] => st
  | st, c :: rest => theadEnd (theadNext st c).1 rest

/-- Number of `<thead>` occurrences completed while consuming `s` from
state `st`. -/
def theadCountFrom : Nat → List Char → Nat
  | _, [] => 0
  | st, c :: rest => (theadNext st c).2 + theadCountFrom (theadNext st c).1 rest

/-- Number of `<thead>` occurrences in `s`. -/
def theadCount (s : List Char) : Nat :=
  theadCountFrom 0 s

/-! ### Lemmas and theorems -/

theorem stripAnsiGo_no_esc (st : AnsiState) (s : List Char) :
    '\x1B' ∉ stripAnsiGo st s := by
  induction s generalizing st with
  | nil => simp [stripAnsiGo]
  | cons c rest ih =>
      cases st <;> simp only [stripAnsiGo, stripAnsiStep] <;> split <;>
        simp_all [List.mem_append]
      rintro rfl
      simp_all

theorem stripAnsiGo_of_no_esc (s : List Char) (h : '\x1B' ∉ s) :
    stripAnsiGo AnsiState.normal s = s := by
  induction s with
  | nil => rfl
  | cons c rest ih =>
      simp only [List.mem_cons, not_or] at h
      have hc : ¬ c = '\x1B' := fun h' => h.1 h'.symm
      simp [stripAnsiGo, stripAnsiStep, hc, ih h.2]

theorem strip_ansi_no_esc (s : List Char) : '\x1B' ∉ strip_ansi s :=
  stripAnsiGo_no_esc AnsiState.normal s

theorem strip_ansi_of_no_esc (s : List Char) (h : '\x1B' ∉ s) :
    strip_ansi s = s :=
  stripAnsiGo_of_no_esc s h

theorem escape_html_nil : escape_html [] = [] := rfl

theorem escape_html_cons (c : Char) (s : List Char) :
    escape_html (c :: s) = escapeHtmlChar c ++ escape_html s := rfl

theorem escape_html_no_lt (s : List Char) : '<' ∉ escape_html s := by
  induction s with
  | nil => simp [escape_html]
  | cons c rest ih =>
      rw [escape_html_cons]
      simp only [List.mem_append, not_or]
      refine ⟨?_, ih⟩
      unfold escapeHtmlChar
      split_ifs with h1 h2 h3 h4 h5 <;> simp_all
      exact fun hx => h2 hx.symm

theorem escape_html_no_gt (s : List Char) : '>' ∉ escape_html s := by
  induction s with
  | nil => simp [escape_html]
  | cons c rest ih =>
      rw [escape_html_cons]
      simp only [List.mem_append, not_or]
      refine ⟨?_, ih⟩
      unfold escapeHtmlChar
      split_ifs with h1 h2 h3 h4 h5 <;> simp_all
      exact fun hx => h3 hx.symm

theorem escapeHtmlChar_no_specials (a c : Char) (hc : c ∈ escapeHtmlChar a) :
    c ≠ '<' ∧ c ≠ '>' ∧ c ≠ '"' ∧ c ≠ '\'' := by
  unfold escapeHtmlChar at hc
  split_ifs at hc with h1 h2 h3 h4 h5
  · have he : "&amp;".data = ['&', 'a', 'm', 'p', ';'] := rfl
    rw [he] at hc
    simp only [List.mem_cons, List.not_mem_nil, or_false] at hc
    rcases hc with rfl | rfl | rfl | rfl | rfl <;> decide
  · have he : "&lt;".data = ['&', 'l', 't', ';'] := rfl
    rw [he] at hc
    simp only [List.mem_cons, List.not_mem_nil, or_false] at hc
    rcases hc with rfl | rfl | rfl | rfl <;> decide
  · have he : "&gt;".data = ['&', 'g', 't', ';'] := rfl
    rw [he] at hc
    simp only [List.mem_cons, List.not_mem_nil, or_false] at hc
    rcases hc with rfl | rfl | rfl | rfl <;> decide
  · have he : "&quot;".data = ['&', 'q', 'u', 'o', 't', ';'] := rfl
    rw [he] at hc
    simp only [List.mem_cons, List.not_mem_nil, or_false] at hc
    rcases hc with rfl | rfl | rfl | rfl | rfl | rfl <;> decide
  · have he : "&#39;".data = ['&', '#', '3', '9', ';'] := rfl
    rw [he] at hc
    simp only [List.mem_cons, List.not_mem_nil, or_false] at hc
    rcases hc with rfl | rfl | rfl | rfl | rfl <;> decide
  · simp only [List.mem_singleton] at hc
    subst hc
    exact ⟨h2, h3, h4, h5⟩

theorem escape_html_no_specials (s : List Char) :
    ∀ c ∈ escape_html s, c ≠ '<' ∧ c ≠ '>' ∧ c ≠ '"' ∧ c ≠ '\'' := by
  induction s with
  | nil => simp [escape_html]
  | cons a rest ih =>
      intro c hc
      rw [escape_html_cons, List.mem_append] at hc
      rcases hc with hc | hc
      · exact escapeHtmlChar_no_specials a c hc
      · exact ih c hc

theorem ampOk_escapeHtmlChar_append (c : Char) (rest : List Char)
    (hrest : ampOk rest = true) : ampOk (escapeHtmlChar c ++ rest) = true := by
  unfold escapeHtmlChar
  split_ifs with h1 h2 h3 h4 h5 <;>
    simp [ampOk, entityStart, hrest, String.data]
  exact Or.inl h1

theorem escape_html_ampOk (s : List Char) : ampOk (escape_html s) = true := by
  induction s with
  | nil => rfl
  | cons c rest ih =>
      rw [escape_html_cons]
      exact ampOk_escapeHtmlChar_append c (escape_html rest) ih

theorem char_toNat_ofNat {n : Nat} (h : n < 55296) : (Char.ofNat n).toNat = n := by
  have hv : n.isValidChar := Or.inl h
  simp [Char.ofNat, hv, Char.ofNatAux, Char.toNat, UInt32.toNat, BitVec.toNat_ofNatLt]

theorem hexVal_hexDigit : ∀ n : Nat, n < 16 → hexVal (hexDigit n) = some n := by
  decide

theorem hexDigit_ascii : ∀ n : Nat, n < 16 → (hexDigit n).toNat < 128 := by
  decide

theorem isQueryPassthrough_bounds (b : Nat) (h : isQueryPassthrough b = true) :
    b < 128 ∧ b ≠ 37 := by
  simp only [isQueryPassthrough, Bool.or_eq_true, Bool.and_eq_true,
    decide_eq_true_eq] at h
  omega

theorem percentDecode_cons_of_ne (c : Char) (hc : ¬ c = '%') (rest : List Char) :
    percentDecode (c :: rest) = (percentDecode rest).map (fun t => c.toNat :: t) := by
  conv_lhs => rw [percentDecode.eq_def]
  dsimp only
  rw [if_neg hc]

theorem percentDecode_escapeQueryByte (b : Nat) (hb : b < 256)
    (rest : List Char) (t : List Nat) (hrest : percentDecode rest = some t) :
    percentDecode (escapeQueryByte b ++ rest) = some (b :: t) := by
  unfold escapeQueryByte
  split_ifs with hp
  · obtain ⟨h128, h37⟩ := isQueryPassthrough_bounds b hp
    have hlt : b < 55296 := by omega
    have hne : ¬ (Char.ofNat b = '%') := by
      intro he
      have h' : (Char.ofNat b).toNat = 37 := by rw [he]; rfl
      rw [char_toNat_ofNat hlt] at h'
      exact h37 h'
    rw [List.singleton_append, percentDecode_cons_of_ne _ hne, hrest]
    simp [char_toNat_ofNat hlt]
  · have h1 : b / 16 < 16 := by omega
    have h2 : b % 16 < 16 := Nat.mod_lt _ (by norm_num)
    simp [percentDecode, hexVal_hexDigit _ h1, hexVal_hexDigit _ h2, hrest]
    omega

theorem escape_query_nil : escape_query [] = [] := rfl

theorem escape_query_cons (b : Nat) (s : List Nat) :
    escape_query (b :: s) = escapeQueryByte b ++ escape_query s := rfl

theorem percentDecode_escape_query (s : List Nat) (h : ∀ b ∈ s, b < 256) :
    percentDecode (escape_query s) = some s := by
  induction s with
  | nil => rfl
  | cons b rest ih =>
      rw [escape_query_cons]
      exact percentDecode_escapeQueryByte b (h b (by simp)) _ _
        (ih fun x hx => h x (List.mem_cons_of_mem _ hx))

theorem hexDigit_upper : ∀ n : Nat, n < 16 → isUpperHexDigit (hexDigit n) = true := by
  decide

theorem theadEnd_append (st : Nat) (a b : List Char) :
    theadEnd st (a ++ b) = theadEnd (theadEnd st a) b := by
  induction a generalizing st with
  | nil => rfl
  | cons c rest ih => simp [theadEnd, ih]

theorem theadCountFrom_append (st : Nat) (a b : List Char) :
    theadCountFrom st (a ++ b)
      = theadCountFrom st a + theadCountFrom (theadEnd st a) b := by
  induction a generalizing st with
  | nil => simp [theadCountFrom, theadEnd]
  | cons c rest ih =>
      simp [theadCountFrom, theadEnd, ih]
      omega

theorem theadEnd_no_lt (s : List Char) (h : '<' ∉ s) : theadEnd 0 s = 0 := by
  induction s with
  | nil => rfl
  | cons c rest ih =>
      simp only [List.mem_cons, not_or] at h
      have hc : ¬ c = '<' := fun h' => h.1 h'.symm
      simp [theadEnd, theadNext, hc]
      exact ih h.2

theorem theadCountFrom_no_lt (s : List Char) (h : '<' ∉ s) :
    theadCountFrom 0 s = 0 := by
  induction s with
  | nil => rfl
  | cons c rest ih =>
      simp only [List.mem_cons, not_or] at h
      have hc : ¬ c = '<' := fun h' => h.1 h'.symm
      simp [theadCountFrom, theadNext, hc]
      exact ih h.2

theorem theadEnd_flatten (L : List (List Char)) (h : ∀ l ∈ L, theadEnd 0 l = 0) :
    theadEnd 0 L.flatten = 0 := by
  induction L with
  | nil => rfl
  | cons a rest ih =>
      rw [List.flatten_cons, theadEnd_append, h a (by simp)]
      exact ih fun l hl => h l (List.mem_cons_of_mem _ hl)

theorem theadCountFrom_flatten (L : List (List Char))
    (hE : ∀ l ∈ L, theadEnd 0 l = 0) (hC : ∀ l ∈ L, theadCountFrom 0 l = 0) :
    theadCountFrom 0 L.flatten = 0 := by
  induction L with
  | nil => rfl
  | cons a rest ih =>
      rw [List.flatten_cons, theadCountFrom_append, hE a (by simp), hC a (by simp)]
      simp only [Nat.zero_add]
      exact ih (fun l hl => hE l (List.mem_cons_of_mem _ hl))
        (fun l hl => hC l (List.mem_cons_of_mem _ hl))

theorem theadClean_append {a b : List Char}
    (ha1 : theadEnd 0 a = 0) (ha2 : theadCountFrom 0 a = 0)
    (hb1 : theadEnd 0 b = 0) (hb2 : theadCountFrom 0 b = 0) :
    theadEnd 0 (a ++ b) = 0 ∧ theadCountFrom 0 (a ++ b) = 0 := by
  constructor
  · rw [theadEnd_append, ha1, hb1]
  · rw [theadCountFrom_append, ha1, ha2, hb2]

theorem theadClean_flatten (L : List (List Char))
    (h : ∀ l ∈ L, theadEnd 0 l = 0 ∧ theadCountFrom 0 l = 0) :
    theadEnd 0 L.flatten = 0 ∧ theadCountFrom 0 L.flatten = 0 :=
  ⟨theadEnd_flatten L fun l hl => (h l hl).1,
   theadCountFrom_flatten L (fun l hl => (h l hl).1) (fun l hl => (h l hl).2)⟩

theorem theadClean_escaped (s : List Char) :
    theadEnd 0 (escape_html s) = 0 ∧ theadCountFrom 0 (escape_html s) = 0 :=
  ⟨theadEnd_no_lt _ (escape_html_no_lt s), theadCountFrom_no_lt _ (escape_html_no_lt s)⟩

theorem theadClean_th_cell (col : List Char) :
    theadEnd 0 ("<th>".data ++ escape_html col ++ "</th>".data) = 0
      ∧ theadCountFrom 0 ("<th>".data ++ escape_html col ++ "</th>".data) = 0 := by
  have h1 := theadClean_escaped col
  have h2 : theadEnd 0 "<th>".data = 0 ∧ theadCountFrom 0 "<th>".data = 0 := by
    constructor <;> decide
  have h3 : theadEnd 0 "</th>".data = 0 ∧ theadCountFrom 0 "</th>".data = 0 := by
    constructor <;> decide
  exact theadClean_append (theadClean_append h2.1 h2.2 h1.1 h1.2).1
    (theadClean_append h2.1 h2.2 h1.1 h1.2).2 h3.1 h3.2

theorem theadClean_td_cell (col : ArrowColumn) (row : Nat) :
    theadEnd 0 ("<td>".data ++ escape_html (value_string col row) ++ "</td>".data) = 0
      ∧ theadCountFrom 0 ("<td>".data ++ escape_html (value_string col row) ++ "</td>".data) = 0 := by
  have h1 := theadClean_escaped (value_string col row)
  have h2 : theadEnd 0 "<td>".data = 0 ∧ theadCountFrom 0 "<td>".data = 0 := by
    constructor <;> decide
  have h3 : theadEnd 0 "</td>".data = 0 ∧ theadCountFrom 0 "</td>".data = 0 := by
    constructor <;> decide
  exact theadClean_append (theadClean_append h2.1 h2.2 h1.1 h1.2).1
    (theadClean_append h2.1 h2.2 h1.1 h1.2).2 h3.1 h3.2

theorem theadClean_headerCells (b : ResultBatch) :
    theadEnd 0 ((b.columnNames.map
        (fun col => "<th>".data ++ escape_html col ++ "</th>".data)).flatten) = 0
      ∧ theadCountFrom 0 ((b.columnNames.map
        (fun col => "<th>".data ++ escape_html col ++ "</th>".data)).flatten) = 0 := by
  refine theadClean_flatten _ ?_
  intro l hl
  simp only [List.mem_map] at hl
  obtain ⟨col, _, rfl⟩ := hl
  exact theadClean_th_cell col

theorem renderHeader_thead (b : ResultBatch) :
    theadEnd 0 (renderHeader b) = 0 ∧ theadCountFrom 0 (renderHeader b) = 1 := by
  unfold renderHeader
  have h1 : theadEnd 0 "<thead><tr>".data = 0 := by decide
  have h2 : theadCountFrom 0 "<thead><tr>".data = 1 := by decide
  have h3 := theadClean_headerCells b
  have h4 : theadEnd 0 "</tr></thead><tbody>".data = 0 := by decide
  have h5 : theadCountFrom 0 "</tr></thead><tbody>".data = 0 := by decide
  constructor
  · simp only [theadEnd_append, h1, h3.1, h4]
  · simp only [theadCountFrom_append, theadEnd_append, h1, h2, h3.1, h3.2, h4, h5]

theorem theadClean_row (b : ResultBatch) (row : Nat) :
    theadEnd 0 ("<tr>".data
        ++ (b.columns.map (fun col =>
              "<td>".data ++ escape_html (value_string col row) ++ "</td>".data)).flatten
        ++ "</tr>".data) = 0
      ∧ theadCountFrom 0 ("<tr>".data
        ++ (b.columns.map (fun col =>
              "<td>".data ++ escape_html (value_string col row) ++ "</td>".data)).flatten
        ++ "</tr>".data) = 0 := by
  have h1 : theadEnd 0 "<tr>".data = 0 ∧ theadCountFrom 0 "<tr>".data = 0 := by
    constructor <;> decide
  have h2 : theadEnd 0 "</tr>".data = 0 ∧ theadCountFrom 0 "</tr>".data = 0 := by
    constructor <;> decide
  have h3 : theadEnd 0 ((b.columns.map (fun col =>
        "<td>".data ++ escape_html (value_string col row) ++ "</td>".data)).flatten) = 0
      ∧ theadCountFrom 0 ((b.columns.map (fun col =>
        "<td>".data ++ escape_html (value_string col row) ++ "</td>".data)).flatten) = 0 := by
    refine theadClean_flatten _ ?_
    intro l hl
    simp only [List.mem_map] at hl
    obtain ⟨col, _, rfl⟩ := hl
    exact theadClean_td_cell col row
  have h12 := theadClean_append h1.1 h1.2 h3.1 h3.2
  exact theadClean_append h12.1 h12.2 h2.1 h2.2

theorem theadClean_renderBatchRows (b : ResultBatch) :
    theadEnd 0 (renderBatchRows b) = 0 ∧ theadCountFrom 0 (renderBatchRows b) = 0 := by
  unfold renderBatchRows
  refine theadClean_flatten _ ?_
  intro l hl
  simp only [List.mem_map] at hl
  obtain ⟨row, _, rfl⟩ := hl
  exact theadClean_row b row

theorem theadClean_rowsFlatten (rest : List ResultBatch) :
    theadEnd 0 ((rest.map renderBatchRows).flatten) = 0
      ∧ theadCountFrom 0 ((rest.map renderBatchRows).flatten) = 0 := by
  refine theadClean_flatten _ ?_
  intro l hl
  simp only [List.mem_map] at hl
  obtain ⟨x, _, rfl⟩ := hl
  exact theadClean_renderBatchRows x

theorem renderLoop_true (rest : List ResultBatch) :
    renderLoop true rest = (rest.map renderBatchRows).flatten := by
  induction rest with
  | nil => rfl
  | cons b bs ih => simp [renderLoop, ih]

theorem renderTable_nil : renderTable [] = "<table id=\"results\"></tbody></table>".data := by
  rfl

theorem renderTable_cons (b : ResultBatch) (rest : List ResultBatch) :
    renderTable (b :: rest) = "<table id=\"results\">".data
      ++ renderHeader b ++ renderBatchRows b ++ (rest.map renderBatchRows).flatten
      ++ "</tbody></table>".data := by
  unfold renderTable renderLoop
  rw [renderLoop_true]
  simp [List.append_assoc]

theorem theadCount_renderTable_nil : theadCount (renderTable []) = 0 := by
  decide

theorem theadCount_renderTable_cons (b : ResultBatch) (rest : List ResultBatch) :
    theadCount (renderTable (b :: rest)) = 1 := by
  rw [renderTable_cons]
  unfold theadCount
  have hopen : theadEnd 0 "<table id=\"results\">".data = 0 := by decide
  have hopenC : theadCountFrom 0 "<table id=\"results\">".data = 0 := by decide
  have hclose : theadCountFrom 0 "</tbody></table>".data = 0 := by decide
  have hh := renderHeader_thead b
  have hr := theadClean_renderBatchRows b
  have hf := theadClean_rowsFlatten rest
  simp only [theadCountFrom_append, theadEnd_append, hopen, hopenC,
    hh.1, hh.2, hr.1, hr.2, hf.1, hf.2, hclose]

/-! ### Claim theorems -/

/-- C4: `escape_html` replaces `&`, `<`, `>`, `"` and `'` by their
entities, passes every other character through unchanged (it operates on
logical characters, so multi-byte sequences are never split — the
embedding works on `Char`, exactly as the source iterates `s.chars()`),
and its output contains no literal `<`, `>`, `"` or `'` and no `&` that
does not begin one of the five emitted entities. -/
theorem escape_html_spec (s : List Char) :
    escapeHtmlChar '&' = "&amp;".data
      ∧ escapeHtmlChar '<' = "&lt;".data
      ∧ escapeHtmlChar '>' = "&gt;".data
      ∧ escapeHtmlChar '"' = "&quot;".data
      ∧ escapeHtmlChar '\'' = "&#39;".data
      ∧ (∀ c : Char, c ≠ '&' → c ≠ '<' → c ≠ '>' → c ≠ '"' → c ≠ '\'' →
          escapeHtmlChar c = [c])
      ∧ (∀ c ∈ escape_html s, c ≠ '<' ∧ c ≠ '>' ∧ c ≠ '"' ∧ c ≠ '\'')
      ∧ ampOk (escape_html s) = true := by
  refine ⟨rfl, rfl, rfl, rfl, rfl, ?_, escape_html_no_specials s, escape_html_ampOk s⟩
  intro c h1 h2 h3 h4 h5
  simp [escapeHtmlChar, h1, h2, h3, h4, h5]

theorem escape_html_spec_witness :
    escapeHtmlChar 'x' = ['x'] ∧ ampOk (escape_html "a<b&c".data) = true :=
  ⟨(escape_html_spec "a<b&c".data).2.2.2.2.2.1 'x'
      (by decide) (by decide) (by decide) (by decide) (by decide),
   (escape_html_spec "a<b&c".data).2.2.2.2.2.2.2⟩

/-- C5: standard percent-decoding of `escape_query`'s output yields the
original input, for every byte string (every Rust byte is below 256). -/
theorem escape_query_roundtrip (s : List Nat) (h : ∀ b ∈ s, b < 256) :
    percentDecode (escape_query s) = some s :=
  percentDecode_escape_query s h

theorem escape_query_roundtrip_witness :
    percentDecode (escape_query [97, 61, 98, 38, 35, 37, 32, 126, 195, 169])
      = some [97, 61, 98, 38, 35, 37, 32, 126, 195, 169] :=
  escape_query_roundtrip [97, 61, 98, 38, 35, 37, 32, 126, 195, 169] (by decide)

/-- C6: `strip_ansi` is idempotent: stripping twice equals stripping
once. -/
theorem strip_ansi_idempotent (s : List Char) :
    strip_ansi (strip_ansi s) = strip_ansi s :=
  strip_ansi_of_no_esc _ (strip_ansi_no_esc s)

/-- C8: the output of `strip_ansi` never contains the escape introducer
0x1B (no character is copied in the `Escape` or `Csi` states, and the
introducer itself is never copied), and its fixed points are exactly the
escape-free strings. -/
theorem strip_ansi_esc_free (s : List Char) :
    '\x1B' ∉ strip_ansi s ∧ (strip_ansi s = s ↔ '\x1B' ∉ s) := by
  refine ⟨strip_ansi_no_esc s, ⟨fun h => ?_, strip_ansi_of_no_esc s⟩⟩
  rw [← h]
  exact strip_ansi_no_esc s

theorem strip_ansi_esc_free_witness : strip_ansi "abc".data = "abc".data :=
  (strip_ansi_esc_free "abc".data).2.mpr (by decide)

/-- C9: `escape_query` output is pure ASCII: every pass-through byte is
emitted as the character of its own (ASCII) code point, every other byte
— in particular every byte ≥ 128, hence each byte of a multi-byte UTF-8
character — as `%` plus exactly two uppercase hex digits. -/
theorem escape_query_ascii_shape (s : List Nat) (h : ∀ b ∈ s, b < 256) :
    (∀ c ∈ escape_query s, c.toNat < 128)
      ∧ (∀ b ∈ s, (isQueryPassthrough b = true ∧ escapeQueryByte b = [Char.ofNat b])
          ∨ (isQueryPassthrough b = false
              ∧ escapeQueryByte b = ['%', hexDigit (b / 16), hexDigit (b % 16)]
              ∧ isUpperHexDigit (hexDigit (b / 16)) = true
              ∧ isUpperHexDigit (hexDigit (b % 16)) = true))
      ∧ (∀ b ∈ s, 128 ≤ b → isQueryPassthrough b = false) := by
  refine ⟨?_, ?_, ?_⟩
  · intro c hc
    simp only [escape_query, List.mem_flatten, List.mem_map] at hc
    obtain ⟨l, ⟨b, hb, rfl⟩, hcl⟩ := hc
    have hb256 : b < 256 := h b hb
    by_cases hq : isQueryPassthrough b = true
    · rw [escapeQueryByte, if_pos hq] at hcl
      simp only [List.mem_singleton] at hcl
      subst hcl
      have := isQueryPassthrough_bounds b hq
      rw [char_toNat_ofNat (by omega)]
      omega
    · rw [escapeQueryByte, if_neg hq] at hcl
      have h1 : b / 16 < 16 := by omega
      have h2 : b % 16 < 16 := Nat.mod_lt _ (by norm_num)
      simp only [List.mem_cons, List.not_mem_nil, or_false] at hcl
      rcases hcl with rfl | rfl | rfl
      · decide
      · exact hexDigit_ascii _ h1
      · exact hexDigit_ascii _ h2
  · intro b hb
    have hb256 : b < 256 := h b hb
    by_cases hq : isQueryPassthrough b = true
    · exact Or.inl ⟨hq, by rw [escapeQueryByte, if_pos hq]⟩
    · refine Or.inr ⟨by simpa using hq, by rw [escapeQueryByte, if_neg hq], ?_, ?_⟩
      · exact hexDigit_upper _ (by omega)
      · exact hexDigit_upper _ (Nat.mod_lt _ (by norm_num))
  · intro b hb hge
    by_cases hq : isQueryPassthrough b = true
    · have := isQueryPassthrough_bounds b hq
      omega
    · simpa using hq

theorem escape_query_ascii_shape_witness :
    isQueryPassthrough 195 = false
      ∧ escapeQueryByte 195 = ['%', hexDigit (195 / 16), hexDigit (195 % 16)]
      ∧ isUpperHexDigit (hexDigit (195 / 16)) = true
      ∧ isUpperHexDigit (hexDigit (195 % 16)) = true := by
  rcases (escape_query_ascii_shape [195] (by decide)).2.1 195 (by decide) with hc | hc
  · exact absurd hc.1 (by decide)
  · exact hc

/-- C10: `value_string` is total at the rendering interface: when the
formatter for a column's type cannot be constructed it returns the
error's message as the cell text, and when it can it returns the
formatted cell, so rendering never propagates a formatter-construction
failure. -/
theorem value_string_total (col : ArrowColumn) (row : Nat) :
    (∀ f, col.tryFormatter = Except.ok f → value_string col row = f row)
      ∧ (∀ e, col.tryFormatter = Except.error e → value_string col row = e) := by
  constructor <;> intro x hx <;> simp [value_string, hx]

theorem value_string_total_witness :
    value_string (ArrowColumn.mk (Except.error "unformattable".data)) 0
      = "unformattable".data :=
  (value_string_total (ArrowColumn.mk (Except.error "unformattable".data)) 0).2
    "unformattable".data rfl

/-- C7: whenever compilation fails, the surfaced error is
`compileError` carrying the compiler's message passed through
`strip_ansi`, and that text contains no escape introducer 0x1B. -/
theorem compile_error_stripped (env : Env) (e : List Char)
    (h : env.compileResult = Except.error e) :
    (run env).2 = Except.error (QueryError.compileError (strip_ansi e))
      ∧ '\x1B' ∉ strip_ansi e := by
  obtain ⟨cr, s1, s2, s3, s4, s5, s6, s7, bs⟩ := env
  cases cr with
  | error e2 =>
      simp only [Except.error.injEq] at h
      subst h
      exact ⟨rfl, strip_ansi_no_esc e2⟩
  | ok sql => simp at h

theorem compile_error_stripped_witness :
    (run (Env.mk (Except.error "\x1B[31mbad\x1B[0m".data)
        true true true true true true true [])).2
      = Except.error (QueryError.compileError (strip_ansi "\x1B[31mbad\x1B[0m".data))
      ∧ '\x1B' ∉ strip_ansi "\x1B[31mbad\x1B[0m".data :=
  compile_error_stripped _ "\x1B[31mbad\x1B[0m".data rfl

/-- C3: when compilation succeeded but the snapshot process exits
non-zero, `squeue_json` returns the snapshot-acquisition failure, the
pipeline stops before any engine session is opened (the trace is exactly
compile then acquire), and that error is the pipeline's result. -/
theorem snapshot_failure_short_circuits (env : Env) (sql : List Char)
    (h1 : env.compileResult = Except.ok sql) (h2 : env.snapshotExitSuccess = false) :
    squeue_json env.snapshotExitSuccess
        = Except.error QueryError.snapshotAcquisitionFailed
      ∧ (run env).2 = Except.error QueryError.snapshotAcquisitionFailed
      ∧ Step.openSession ∉ (run env).1
      ∧ (run env).1 = [Step.compilePrql, Step.acquireSnapshot] := by
  obtain ⟨cr, s1, s2, s3, s4, s5, s6, s7, bs⟩ := env
  cases cr with
  | error e => simp at h1
  | ok sql2 =>
      simp only at h2
      subst h2
      refine ⟨rfl, ?_, ?_, ?_⟩ <;> simp [run, squeue_json]

theorem snapshot_failure_short_circuits_witness :
    (run (Env.mk (Except.ok []) false true true true true true true [])).2
        = Except.error QueryError.snapshotAcquisitionFailed
      ∧ Step.openSession ∉ (run (Env.mk (Except.ok []) false true true true true true true [])).1 :=
  ⟨(snapshot_failure_short_circuits (Env.mk (Except.ok []) false true true true true true true [])
      [] rfl rfl).2.1,
   (snapshot_failure_short_circuits (Env.mk (Except.ok []) false true true true true true true [])
      [] rfl rfl).2.2.1⟩

/-- C1: in every run in which the untrusted compiled statement is
prepared or executed, the trusted snapshot load into `queue` happened
first, then the filesystem/network providers were disabled, then the
configuration was locked, and only then was the statement prepared and
executed — so the statement never runs with the configuration unlocked
or filesystem providers enabled. -/
theorem hardening_between_load_and_untrusted_statement (env : Env)
    (h : Step.prepareStatement ∈ (run env).1 ∨ Step.executeStatement ∈ (run env).1) :
    Step.loadSnapshot ∈ (run env).1
      ∧ Step.disableFilesystems ∈ (run env).1
      ∧ Step.lockConfiguration ∈ (run env).1
      ∧ Step.prepareStatement ∈ (run env).1
      ∧ (run env).1.indexOf Step.loadSnapshot < (run env).1.indexOf Step.disableFilesystems
      ∧ (run env).1.indexOf Step.disableFilesystems < (run env).1.indexOf Step.lockConfiguration
      ∧ (run env).1.indexOf Step.lockConfiguration < (run env).1.indexOf Step.prepareStatement
      ∧ (Step.executeStatement ∈ (run env).1 →
          (run env).1.indexOf Step.prepareStatement < (run env).1.indexOf Step.executeStatement) := by
  obtain ⟨cr, s1, s2, s3, s4, s5, s6, s7, bs⟩ := env
  cases cr with
  | error e => simp [run] at h
  | ok sql =>
      cases s1 <;> cases s2 <;> cases s3 <;> cases s4 <;> cases s5 <;> cases s6 <;> cases s7 <;>
        simp_all [run, squeue_json]

theorem hardening_between_load_and_untrusted_statement_witness :
    (run (Env.mk (Except.ok []) true true true true true true true [])).1.indexOf
        Step.loadSnapshot
      < (run (Env.mk (Except.ok []) true true true true true true true [])).1.indexOf
        Step.disableFilesystems
      ∧ (run (Env.mk (Except.ok []) true true true true true true true [])).1.indexOf
        Step.disableFilesystems
      < (run (Env.mk (Except.ok []) true true true true true true true [])).1.indexOf
        Step.lockConfiguration
      ∧ (run (Env.mk (Except.ok []) true true true true true true true [])).1.indexOf
        Step.lockConfiguration
      < (run (Env.mk (Except.ok []) true true true true true true true [])).1.indexOf
        Step.prepareStatement := by
  have h := hardening_between_load_and_untrusted_statement
    (Env.mk (Except.ok []) true true true true true true true []) (Or.inl (by decide))
  exact ⟨h.2.2.2.2.1, h.2.2.2.2.2.1, h.2.2.2.2.2.2.1⟩

/-- C2: with zero batches the rendered fragment is the empty table shell
(no `<thead>`, no `<th>` header cell, no `<tr>` row anywhere in it), and
with at least one batch the fragment is the opening tag, the header block
built from the first batch, then only row markup — the `<thead>` header
row appears exactly once, and only when a batch was produced. -/
theorem render_empty_shell_and_single_header (bs : List ResultBatch) :
    (bs = [] → renderTable bs = "<table id=\"results\"></tbody></table>".data
        ∧ theadCount (renderTable bs) = 0
        ∧ ¬ List.IsInfix "<thead>".data (renderTable bs)
        ∧ ¬ List.IsInfix "<th>".data (renderTable bs)
        ∧ ¬ List.IsInfix "<tr>".data (renderTable bs))
      ∧ (∀ b rest, bs = b :: rest →
          renderTable bs = "<table id=\"results\">".data ++ renderHeader b
              ++ renderBatchRows b ++ (rest.map renderBatchRows).flatten
              ++ "</tbody></table>".data
            ∧ theadCount (renderTable bs) = 1) := by
  constructor
  · rintro rfl
    refine ⟨renderTable_nil, theadCount_renderTable_nil, ?_, ?_, ?_⟩ <;>
      rw [renderTable_nil] <;> decide
  · rintro b rest rfl
    exact ⟨renderTable_cons b rest, theadCount_renderTable_cons b rest⟩

theorem render_empty_shell_and_single_header_witness :
    renderTable [] = "<table id=\"results\"></tbody></table>".data
      ∧ theadCount (renderTable [ResultBatch.mk ["job_id".data] 0 []]) = 1 :=
  ⟨((render_empty_shell_and_single_header []).1 rfl).1,
   ((render_empty_shell_and_single_header [ResultBatch.mk ["job_id".data] 0 []]).2
      (ResultBatch.mk ["job_id".data] 0 []) [] rfl).2⟩

end SlurmQuery
